import Mathlib

/-!
Shallow embedding of the mcp23x17 SPI I/O-expander driver (src/src/lib.rs).

The Rust driver funnels all chip access through one `Spidev` handle shared
behind `Arc<Mutex<..>>`.  Here the handle becomes an explicit state value
threaded through every operation.  The state carries:
  * `regs`   — the chip register file (address to byte; the model stores the
               byte last written, reads return it reduced mod 256);
  * `faults` — a schedule of transport outcomes, one per transaction:
               `none` = the transaction succeeds, `some e` = the transport
               fails with error value `e` (modelling `Box<Error>`);
  * `log`    — the list of byte-level transactions issued on the wire.

Rust `u8` arithmetic is embedded over `Nat` with explicit reductions mod 256.
A Rust `u8` left shift masks the shift amount by the bit width in release
builds, hence `1u8 << num` is embedded as `1 <<< (num % 8)`.
-/

namespace Mcp23x17

/-- Mcp23s17 register addresses (I/O direction A). -/
def IODIRA : Nat := 0x0

/-- Mcp23s17 register addresses (I/O direction B). -/
def IODIRB : Nat := 0x1

/-- Mcp23s17 register addresses (port B pullups). -/
def GPPUB : Nat := 0xD

/-- Mcp23s17 register addresses (port A data). -/
def GPIOA : Nat := 0x12

/-- Mcp23s17 register addresses (port B data). -/
def GPIOB : Nat := 0x13

/-- Fixed chip hardware address (`const HARDWARE_ADDRESS: u8 = 0`). -/
def HARDWARE_ADDRESS : Nat := 0

/-- Command byte for writes: `0x40 | (HARDWARE_ADDRESS << 1) | 0`. -/
def write_cmd : Nat := 0x40 ||| (HARDWARE_ADDRESS <<< 1) ||| 0

/-- Command byte for reads: `0x40 | (HARDWARE_ADDRESS << 1) | 1`. -/
def read_cmd : Nat := 0x40 ||| (HARDWARE_ADDRESS <<< 1) ||| 1

/-- Logic level of one I/O line (`pub enum IoValue`). -/
inductive IoValue where
  | Low
  | High
deriving DecidableEq, Repr

/-- Which of the two 8-bit ports a pin lives on (`enum PortLabel`). -/
inductive PortLabel where
  | Out
  | In
deriving DecidableEq, Repr

/-- Data-register address of a port (`PortLabel::address`). -/
def PortLabel.address : PortLabel → Nat
  | PortLabel.Out => GPIOA
  | PortLabel.In => GPIOB

/-- One byte-level transaction on the wire: a unidirectional write of a tx
buffer, or a full-duplex transfer clocking a tx buffer out. -/
inductive Txn where
  | write (tx : List Nat)
  | transfer (tx : List Nat)
deriving DecidableEq, Repr

/-- Number of write transactions in a wire log. -/
def writeCount (log : List Txn) : Nat :=
  log.countP fun t => match t with
    | Txn.write _ => true
    | Txn.transfer _ => false

/-- Chip register semantics of clocking a tx buffer in: a 3-byte stream
whose command byte is the write command stores the data byte (as a `u8`)
at the addressed register; any other stream leaves the registers alone. -/
def chipWrite (regs : Nat → Nat) (tx : List Nat) : Nat → Nat :=
  match tx with
  | [cmd, addr, byte] =>
    if cmd = 0x40 then fun a => if a = addr then byte % 256 else regs a
    else regs
  | _ => regs

/-- Chip semantics of the bytes clocked back during a duplex transfer: for a
3-byte stream whose command byte is the read command, the addressed
register's byte comes back as the 3rd received byte. -/
def chipRx (regs : Nat → Nat) (tx : List Nat) : List Nat :=
  match tx with
  | [cmd, addr, _] =>
    if cmd = 0x41 then [0, 0, regs addr % 256] else [0, 0, 0]
  | _ => List.replicate tx.length 0

/-- Transport errors are carried as an abstract numeric code (the Rust
driver boxes and propagates the transport's error value unchanged). -/
abbrev SpiResult (α : Type) := Except Nat α

/-- State of the (already opened and configured) transport plus the chip
behind it, with a fault schedule and a log of issued transactions. -/
structure Spidev where
  regs : Nat → Nat
  faults : List (Option Nat)
  log : List Txn

/-- Transport primitive `spi.write(&tx_buf)`: a unidirectional write
transaction.  Consumes the next scheduled outcome; on success the chip
processes the clocked-out bytes and the transaction is logged. -/
def Spidev.write (spi : Spidev) (tx : List Nat) : Spidev × SpiResult Unit :=
  match spi.faults.headD none with
  | some e => ({ spi with faults := spi.faults.tail }, Except.error e)
  | none =>
    ({ regs := chipWrite spi.regs tx
       faults := spi.faults.tail
       log := spi.log ++ [Txn.write tx] }, Except.ok ())

/-- Transport primitive `spi.transfer(..)`: a full-duplex transaction
clocking `tx` out and the chip's reply back in. -/
def Spidev.transfer (spi : Spidev) (tx : List Nat) : Spidev × SpiResult (List Nat) :=
  match spi.faults.headD none with
  | some e => ({ spi with faults := spi.faults.tail }, Except.error e)
  | none =>
    ({ regs := chipWrite spi.regs tx
       faults := spi.faults.tail
       log := spi.log ++ [Txn.transfer tx] }, Except.ok (chipRx spi.regs tx))

/-- Embedding of `fn write_byte`: sends `[write_cmd(), address, byte]`. -/
def write_byte (spi : Spidev) (address byte : Nat) : Spidev × SpiResult Unit :=
  spi.write [write_cmd, address, byte]

/-- Embedding of `fn read_byte`: clocks `[read_cmd(), address, 0]` out and
returns `rx_buf[2]`, the 3rd received byte of the duplex reply. -/
def read_byte (spi : Spidev) (address : Nat) : Spidev × SpiResult Nat :=
  match spi.transfer [read_cmd, address, 0] with
  | (spi1, Except.ok rx) => (spi1, Except.ok (rx.getD 2 0))
  | (spi1, Except.error e) => (spi1, Except.error e)

/-- Embedding of `fn read_port`. -/
def read_port (spi : Spidev) (label : PortLabel) : Spidev × SpiResult Nat :=
  read_byte spi label.address

/-- Embedding of `fn write_port`. -/
def write_port (spi : Spidev) (label : PortLabel) (byte : Nat) : Spidev × SpiResult Unit :=
  write_byte spi label.address byte

/-- A pin view (`struct Pin`): the `Arc<Mutex<Spidev>>` field becomes the
explicitly threaded `Spidev` state, so only the port label and the bit
number remain. -/
structure Pin where
  label : PortLabel
  num : Nat
deriving DecidableEq, Repr

/-- Left shift of 1 by a `u8` bit count as Rust release builds compute it:
the shift amount is masked by the bit width (8). -/
def u8_shl1 (n : Nat) : Nat := 1 <<< (n % 8)

/-- Bitwise `u8` complement (`!mask` on a byte). -/
def u8_not (x : Nat) : Nat := x ^^^ 0xFF

/-- Embedding of `Reader::read_value` for `Pin`: reads the owning port's
byte and masks the pin's bit. -/
def Pin.read_value (p : Pin) (spi : Spidev) : Spidev × SpiResult IoValue :=
  let mask := u8_shl1 p.num
  match read_port spi p.label with
  | (spi1, Except.ok read) =>
    (spi1, Except.ok (match read &&& mask with
      | 0 => IoValue.Low
      | _ => IoValue.High))
  | (spi1, Except.error e) => (spi1, Except.error e)

/-- Embedding of `Writer::set_value` for `Pin`: read the port byte, clear or
set the one target bit, and write back only if the byte changed. -/
def Pin.set_value (p : Pin) (value : IoValue) (spi : Spidev) : Spidev × SpiResult Unit :=
  match read_port spi p.label with
  | (spi1, Except.error e) => (spi1, Except.error e)
  | (spi1, Except.ok did_read) =>
    let mask := u8_shl1 p.num
    let to_write := match value with
      | IoValue.Low => did_read &&& u8_not mask
      | IoValue.High => did_read ||| mask
    if did_read ≠ to_write then write_port spi1 p.label to_write
    else (spi1, Except.ok ())

/-- Embedding of `Writer::set_low`. -/
def Pin.set_low (p : Pin) (spi : Spidev) : Spidev × SpiResult Unit :=
  p.set_value IoValue.Low spi

/-- Embedding of `Writer::set_high`. -/
def Pin.set_high (p : Pin) (spi : Spidev) : Spidev × SpiResult Unit :=
  p.set_value IoValue.High spi

/-- Embedding of `Expander::new` after `Spidev::open` and `configure`
succeeded: the four initialization writes, aborting on the first error.
The produced `Expander` value carries nothing beyond the threaded state. -/
def Expander.new (spi : Spidev) : Spidev × SpiResult Unit :=
  match write_byte spi GPIOA 0 with
  | (spi1, Except.error e) => (spi1, Except.error e)
  | (spi1, Except.ok _) =>
    match write_byte spi1 IODIRA 0 with
    | (spi2, Except.error e) => (spi2, Except.error e)
    | (spi2, Except.ok _) =>
      match write_byte spi2 IODIRB 0xFF with
      | (spi3, Except.error e) => (spi3, Except.error e)
      | (spi3, Except.ok _) => write_byte spi3 GPPUB 0xFF

/-- Output capability view (`pub type Output = Box<Writer + Send>`). -/
structure Output where
  pin : Pin
deriving DecidableEq, Repr

/-- Input capability view (`pub type Input = Box<Reader + Send>`). -/
structure Input where
  pin : Pin
deriving DecidableEq, Repr

/-- Embedding of `Expander::output`: a writer view over port A. -/
def Expander.output (pin_num : Nat) : Output :=
  { pin := { label := PortLabel.Out, num := pin_num } }

/-- Embedding of `Expander::input`: a reader view over port B. -/
def Expander.input (pin_num : Nat) : Input :=
  { pin := { label := PortLabel.In, num := pin_num } }

/-- Embedding of `Expander::output_byte`. -/
def Expander.output_byte (spi : Spidev) : Spidev × SpiResult Nat :=
  read_port spi PortLabel.Out

/-- Embedding of `Expander::input_byte`. -/
def Expander.input_byte (spi : Spidev) : Spidev × SpiResult Nat :=
  read_port spi PortLabel.In

/-- Reading through an Output view (`Writer: Reader` supertrait). -/
def Output.read_value (o : Output) (spi : Spidev) : Spidev × SpiResult IoValue :=
  o.pin.read_value spi

/-- Writing through an Output view. -/
def Output.set_value (o : Output) (value : IoValue) (spi : Spidev) : Spidev × SpiResult Unit :=
  o.pin.set_value value spi

/-- Reading through an Input view. -/
def Input.read_value (i : Input) (spi : Spidev) : Spidev × SpiResult IoValue :=
  i.pin.read_value spi

/-- Companion read-only view of an Output view over the same port and bit.
In the Rust source this is the `Writer: Reader` capability upcast of the
`Clone`d pin: a pure value conversion with no `Spidev` involvement. -/
def Output.as_input (o : Output) : Input :=
  { pin := o.pin }

/-! Helper lemmas: command-byte values, transport characterizations, and
byte-level bit facts (decided exhaustively over the 256 byte values and the
8 bit positions). -/

theorem write_cmd_eq : write_cmd = 0x40 := rfl

theorem read_cmd_eq : read_cmd = 0x41 := rfl

theorem Spidev.write_ok (spi : Spidev) (tx : List Nat) (h : spi.faults = []) :
    spi.write tx =
      ({ regs := chipWrite spi.regs tx, faults := [], log := spi.log ++ [Txn.write tx] },
       Except.ok ()) := by
  simp [Spidev.write, h]

theorem Spidev.transfer_ok (spi : Spidev) (tx : List Nat) (h : spi.faults = []) :
    spi.transfer tx =
      ({ regs := chipWrite spi.regs tx, faults := [], log := spi.log ++ [Txn.transfer tx] },
       Except.ok (chipRx spi.regs tx)) := by
  simp [Spidev.transfer, h]

theorem read_port_ok (spi : Spidev) (label : PortLabel) (h : spi.faults = []) :
    read_port spi label =
      ({ regs := spi.regs, faults := [],
         log := spi.log ++ [Txn.transfer [read_cmd, label.address, 0]] },
       Except.ok (spi.regs label.address % 256)) := by
  simp [read_port, read_byte, Spidev.transfer_ok _ _ h, chipWrite, chipRx, read_cmd_eq]

theorem write_port_ok (spi : Spidev) (label : PortLabel) (byte : Nat) (h : spi.faults = []) :
    write_port spi label byte =
      ({ regs := fun a => if a = label.address then byte % 256 else spi.regs a,
         faults := [],
         log := spi.log ++ [Txn.write [write_cmd, label.address, byte]] },
       Except.ok ()) := by
  simp [write_port, write_byte, Spidev.write_ok _ _ h, chipWrite, write_cmd_eq]

theorem read_match_eq (x : Nat) :
    (match x with | 0 => IoValue.Low | _ => IoValue.High)
      = if x = 0 then IoValue.Low else IoValue.High := by
  cases x <;> simp

set_option maxRecDepth 100000 in
theorem or_mask_facts : ∀ j < 8, ∀ d < 256,
    (d ||| (1 <<< j)) < 256 ∧ ((d ||| (1 <<< j)) &&& (1 <<< j)) ≠ 0 ∧
    ((d ||| (1 <<< j)) ||| (1 <<< j)) = d ||| (1 <<< j) := by
  decide

set_option maxRecDepth 100000 in
theorem and_mask_facts : ∀ j < 8, ∀ d < 256,
    (d &&& u8_not (1 <<< j)) < 256 ∧ ((d &&& u8_not (1 <<< j)) &&& (1 <<< j)) = 0 ∧
    ((d &&& u8_not (1 <<< j)) &&& u8_not (1 <<< j)) = d &&& u8_not (1 <<< j) := by
  decide

set_option maxRecDepth 1000000 in
theorem mask_isolation_facts : ∀ i < 8, ∀ j < 8, j ≠ i → ∀ d < 256,
    ((d ||| (1 <<< i)).testBit j = d.testBit j) ∧
    ((d &&& u8_not (1 <<< i)).testBit j = d.testBit j) := by
  decide

theorem u8_shl1_eq (n : Nat) : u8_shl1 n = 1 <<< (n % 8) := rfl

theorem u8_shl1_mod (n : Nat) : u8_shl1 (n % 8) = u8_shl1 n := by
  simp only [u8_shl1]
  congr 1
  omega

theorem read_value_ok (label : PortLabel) (num : Nat) (spi : Spidev) (hf : spi.faults = []) :
    Pin.read_value ⟨label, num⟩ spi =
      ({ regs := spi.regs, faults := [],
         log := spi.log ++ [Txn.transfer [read_cmd, label.address, 0]] },
       Except.ok (if spi.regs label.address % 256 &&& u8_shl1 num = 0
                  then IoValue.Low else IoValue.High)) := by
  simp only [Pin.read_value, read_port_ok _ _ hf, read_match_eq]

theorem set_value_ok (label : PortLabel) (num : Nat) (v : IoValue) (spi : Spidev) (w : Nat)
    (hf : spi.faults = [])
    (hw : w = (match v with
      | IoValue.Low => (spi.regs label.address % 256) &&& u8_not (u8_shl1 num)
      | IoValue.High => (spi.regs label.address % 256) ||| u8_shl1 num)) :
    Pin.set_value ⟨label, num⟩ v spi =
      (if spi.regs label.address % 256 ≠ w then
        ({ regs := fun a => if a = label.address then w % 256 else spi.regs a,
           faults := [],
           log := spi.log ++ [Txn.transfer [read_cmd, label.address, 0],
                              Txn.write [write_cmd, label.address, w]] },
         Except.ok ())
       else
        ({ regs := spi.regs, faults := [],
           log := spi.log ++ [Txn.transfer [read_cmd, label.address, 0]] },
         Except.ok ())) := by
  subst hw
  simp only [Pin.set_value, read_port_ok _ _ hf]
  by_cases hc : spi.regs label.address % 256 =
      (match v with
        | IoValue.Low => (spi.regs label.address % 256) &&& u8_not (u8_shl1 num)
        | IoValue.High => (spi.regs label.address % 256) ||| u8_shl1 num)
  · rw [if_neg (by simpa using hc), if_neg (by simpa using hc)]
  · rw [if_pos (by simpa using hc), if_pos (by simpa using hc)]
    rw [write_port_ok _ _ _ rfl]
    simp

theorem writeCount_append (l1 l2 : List Txn) :
    writeCount (l1 ++ l2) = writeCount l1 + writeCount l2 :=
  List.countP_append _ _ _

theorem writeCount_transfer (tx : List Nat) : writeCount [Txn.transfer tx] = 0 := rfl

theorem writeCount_write (tx : List Nat) : writeCount [Txn.write tx] = 1 := rfl

theorem writeCount_nil : writeCount [] = 0 := rfl

theorem writeCount_cons_transfer (tx : List Nat) (l : List Txn) :
    writeCount (Txn.transfer tx :: l) = writeCount l := by
  simp [writeCount, List.countP_cons]

theorem writeCount_cons_write (tx : List Nat) (l : List Txn) :
    writeCount (Txn.write tx :: l) = writeCount l + 1 := by
  simp [writeCount, List.countP_cons]

/-! Concrete transport states used by the witnesses: a healthy transport
over a zeroed chip, and transports whose schedule fails a transaction. -/

/-- Healthy transport: the schedule never fails a transaction. -/
def spiH : Spidev := { regs := fun _ => 0, faults := [], log := [] }

/-- Transport whose first transaction fails with error value 7. -/
def spiF : Spidev := { regs := fun _ => 0, faults := [some 7], log := [] }

/-- Transport whose third transaction fails with error value 5. -/
def spiF2 : Spidev := { regs := fun _ => 0, faults := [none, none, some 5], log := [] }

/-- Claim C1: for every pin view (either port, bit index 0-7) and every value
v in {Low, High}, calling set_value(v) and then read_value() on the same pin
returns v, assuming the chip register model stores the byte last written and
no transaction fails. -/
theorem claim_C1 (label : PortLabel) (num : Nat) (v : IoValue) (spi : Spidev)
    (hnum : num < 8) (hf : spi.faults = []) :
    (Pin.set_value ⟨label, num⟩ v spi).2 = Except.ok () ∧
    (Pin.read_value ⟨label, num⟩ (Pin.set_value ⟨label, num⟩ v spi).1).2 = Except.ok v := by
  have hj : num % 8 < 8 := Nat.mod_lt _ (by norm_num)
  have hd : spi.regs label.address % 256 < 256 := Nat.mod_lt _ (by norm_num)
  cases v
  case Low =>
    obtain ⟨hw_lt, hw_and, _⟩ := and_mask_facts (num % 8) hj (spi.regs label.address % 256) hd
    rw [set_value_ok label num IoValue.Low spi
      ((spi.regs label.address % 256) &&& u8_not (1 <<< (num % 8))) hf rfl]
    by_cases hc : spi.regs label.address % 256 =
        (spi.regs label.address % 256) &&& u8_not (1 <<< (num % 8))
    · rw [if_neg (by simpa using hc)]
      refine ⟨rfl, ?_⟩
      rw [read_value_ok label num _ rfl]
      simp only [u8_shl1_eq]
      have hzero : spi.regs label.address % 256 &&& 1 <<< (num % 8) = 0 := by
        conv_lhs => rw [hc]
        exact hw_and
      rw [if_pos hzero]
    · rw [if_pos (by simpa using hc)]
      refine ⟨rfl, ?_⟩
      rw [read_value_ok label num _ rfl]
      simp only [u8_shl1_eq, eq_self_iff_true, if_true]
      rw [Nat.mod_mod_of_dvd _ dvd_rfl, Nat.mod_eq_of_lt hw_lt, if_pos hw_and]
  case High =>
    obtain ⟨hw_lt, hw_and, _⟩ := or_mask_facts (num % 8) hj (spi.regs label.address % 256) hd
    rw [set_value_ok label num IoValue.High spi
      ((spi.regs label.address % 256) ||| 1 <<< (num % 8)) hf rfl]
    by_cases hc : spi.regs label.address % 256 =
        (spi.regs label.address % 256) ||| 1 <<< (num % 8)
    · rw [if_neg (by simpa using hc)]
      refine ⟨rfl, ?_⟩
      rw [read_value_ok label num _ rfl]
      simp only [u8_shl1_eq]
      have hne : spi.regs label.address % 256 &&& 1 <<< (num % 8) ≠ 0 := by
        conv_lhs => rw [hc]
        exact hw_and
      rw [if_neg hne]
    · rw [if_pos (by simpa using hc)]
      refine ⟨rfl, ?_⟩
      rw [read_value_ok label num _ rfl]
      simp only [u8_shl1_eq, eq_self_iff_true, if_true]
      rw [Nat.mod_mod_of_dvd _ dvd_rfl, Nat.mod_eq_of_lt hw_lt, if_neg hw_and]

theorem set_value_second_noop (label : PortLabel) (num : Nat) (v : IoValue) (spi2 : Spidev)
    (hf2 : spi2.faults = [])
    (hstable : spi2.regs label.address % 256 =
      (match v with
        | IoValue.Low => (spi2.regs label.address % 256) &&& u8_not (u8_shl1 num)
        | IoValue.High => (spi2.regs label.address % 256) ||| u8_shl1 num)) :
    (Pin.set_value ⟨label, num⟩ v spi2).1.log
      = spi2.log ++ [Txn.transfer [read_cmd, label.address, 0]] := by
  rw [set_value_ok label num v spi2 _ hf2 rfl, if_neg (not_not_intro hstable)]

theorem set_value_post (label : PortLabel) (num : Nat) (v : IoValue) (spi : Spidev)
    (hf : spi.faults = []) :
    (Pin.set_value ⟨label, num⟩ v spi).1.faults = [] ∧
    writeCount (Pin.set_value ⟨label, num⟩ v spi).1.log ≤ writeCount spi.log + 1 ∧
    (Pin.set_value ⟨label, num⟩ v spi).1.regs label.address % 256 =
      (match v with
        | IoValue.Low =>
          ((Pin.set_value ⟨label, num⟩ v spi).1.regs label.address % 256) &&& u8_not (u8_shl1 num)
        | IoValue.High =>
          ((Pin.set_value ⟨label, num⟩ v spi).1.regs label.address % 256) ||| u8_shl1 num) := by
  have hj : num % 8 < 8 := Nat.mod_lt _ (by norm_num)
  have hd : spi.regs label.address % 256 < 256 := Nat.mod_lt _ (by norm_num)
  cases v
  case Low =>
    obtain ⟨hw_lt, hw_and, hw_idem⟩ :=
      and_mask_facts (num % 8) hj (spi.regs label.address % 256) hd
    rw [set_value_ok label num IoValue.Low spi
      ((spi.regs label.address % 256) &&& u8_not (1 <<< (num % 8))) hf rfl]
    by_cases hc : spi.regs label.address % 256 =
        (spi.regs label.address % 256) &&& u8_not (1 <<< (num % 8))
    · rw [if_neg (not_not_intro hc)]
      refine ⟨rfl, ?_, ?_⟩
      · simp only [writeCount_append, writeCount_transfer]
        omega
      · simpa using hc
    · rw [if_pos hc]
      refine ⟨rfl, ?_, ?_⟩
      · simp only [writeCount_append, writeCount_cons_transfer, writeCount_cons_write,
          writeCount_nil]
        omega
      · show (if label.address = label.address then
            ((spi.regs label.address % 256) &&& u8_not (1 <<< (num % 8))) % 256
          else spi.regs label.address) % 256 =
          ((if label.address = label.address then
            ((spi.regs label.address % 256) &&& u8_not (1 <<< (num % 8))) % 256
          else spi.regs label.address) % 256) &&& u8_not (1 <<< (num % 8))
        rw [if_pos rfl, Nat.mod_mod_of_dvd _ dvd_rfl, Nat.mod_eq_of_lt hw_lt]
        exact hw_idem.symm
  case High =>
    obtain ⟨hw_lt, hw_and, hw_idem⟩ :=
      or_mask_facts (num % 8) hj (spi.regs label.address % 256) hd
    rw [set_value_ok label num IoValue.High spi
      ((spi.regs label.address % 256) ||| 1 <<< (num % 8)) hf rfl]
    by_cases hc : spi.regs label.address % 256 =
        (spi.regs label.address % 256) ||| 1 <<< (num % 8)
    · rw [if_neg (not_not_intro hc)]
      refine ⟨rfl, ?_, ?_⟩
      · simp only [writeCount_append, writeCount_transfer]
        omega
      · simpa using hc
    · rw [if_pos hc]
      refine ⟨rfl, ?_, ?_⟩
      · simp only [writeCount_append, writeCount_cons_transfer, writeCount_cons_write,
          writeCount_nil]
        omega
      · show (if label.address = label.address then
            ((spi.regs label.address % 256) ||| 1 <<< (num % 8)) % 256
          else spi.regs label.address) % 256 =
          ((if label.address = label.address then
            ((spi.regs label.address % 256) ||| 1 <<< (num % 8)) % 256
          else spi.regs label.address) % 256) ||| 1 <<< (num % 8)
        rw [if_pos rfl, Nat.mod_mod_of_dvd _ dvd_rfl, Nat.mod_eq_of_lt hw_lt]
        exact hw_idem.symm

/-- Witness for C1 at pin (Out, 3), value High, over a healthy transport. -/
theorem claim_C1_witness :
    3 < 8 ∧ spiH.faults = [] ∧
    ((Pin.set_value ⟨PortLabel.Out, 3⟩ IoValue.High spiH).2 = Except.ok () ∧
     (Pin.read_value ⟨PortLabel.Out, 3⟩
       (Pin.set_value ⟨PortLabel.Out, 3⟩ IoValue.High spiH).1).2 = Except.ok IoValue.High) :=
  ⟨by decide, rfl, claim_C1 PortLabel.Out 3 IoValue.High spiH (by decide) rfl⟩

/-- Claim C2: set_value is idempotent with respect to bus writes: for every
pin and value v, calling set_value(v) twice in succession issues at most one
write transaction on the transport; the second call reads the port byte,
computes the same byte, and performs no write. -/
theorem claim_C2 (label : PortLabel) (num : Nat) (v : IoValue) (spi : Spidev)
    (hf : spi.faults = []) :
    writeCount (Pin.set_value ⟨label, num⟩ v (Pin.set_value ⟨label, num⟩ v spi).1).1.log
      = writeCount (Pin.set_value ⟨label, num⟩ v spi).1.log ∧
    writeCount (Pin.set_value ⟨label, num⟩ v spi).1.log ≤ writeCount spi.log + 1 := by
  obtain ⟨hf1, hcount, hstable⟩ := set_value_post label num v spi hf
  refine ⟨?_, hcount⟩
  rw [set_value_second_noop label num v _ hf1 hstable]
  simp only [writeCount_append, writeCount_transfer, Nat.add_zero]

/-- Witness for C2 at pin (Out, 2), value High, over a healthy transport. -/
theorem claim_C2_witness :
    spiH.faults = [] ∧
    (writeCount (Pin.set_value ⟨PortLabel.Out, 2⟩ IoValue.High
        (Pin.set_value ⟨PortLabel.Out, 2⟩ IoValue.High spiH).1).1.log
      = writeCount (Pin.set_value ⟨PortLabel.Out, 2⟩ IoValue.High spiH).1.log ∧
     writeCount (Pin.set_value ⟨PortLabel.Out, 2⟩ IoValue.High spiH).1.log
      ≤ writeCount spiH.log + 1) :=
  ⟨rfl, claim_C2 PortLabel.Out 2 IoValue.High spiH rfl⟩

/-- Claim C3: mask isolation: for bit indices i and j ≠ i in 0-7 and every
value v, a successful set_value(v) on the pin for bit i leaves the value of
bit j of the same port's byte unchanged. -/
theorem claim_C3 (label : PortLabel) (i j : Nat) (v : IoValue) (spi : Spidev)
    (hi : i < 8) (hj : j < 8) (hne : j ≠ i) (hf : spi.faults = []) :
    Nat.testBit ((Pin.set_value ⟨label, i⟩ v spi).1.regs label.address % 256) j
      = Nat.testBit (spi.regs label.address % 256) j := by
  have hd : spi.regs label.address % 256 < 256 := Nat.mod_lt _ (by norm_num)
  have hi8 : i % 8 < 8 := Nat.mod_lt _ (by norm_num)
  have him : i % 8 = i := Nat.mod_eq_of_lt hi
  have hne8 : j ≠ i % 8 := by rw [him]; exact hne
  obtain ⟨hiso_or, hiso_and⟩ :=
    mask_isolation_facts (i % 8) hi8 j hj hne8 (spi.regs label.address % 256) hd
  cases v
  case Low =>
    obtain ⟨hw_lt, _, _⟩ := and_mask_facts (i % 8) hi8 (spi.regs label.address % 256) hd
    rw [set_value_ok label i IoValue.Low spi
      ((spi.regs label.address % 256) &&& u8_not (1 <<< (i % 8))) hf rfl]
    by_cases hc : spi.regs label.address % 256 =
        (spi.regs label.address % 256) &&& u8_not (1 <<< (i % 8))
    · rw [if_neg (not_not_intro hc)]
    · rw [if_pos hc]
      show Nat.testBit ((if label.address = label.address then
          ((spi.regs label.address % 256) &&& u8_not (1 <<< (i % 8))) % 256
        else spi.regs label.address) % 256) j = _
      rw [if_pos rfl, Nat.mod_mod_of_dvd _ dvd_rfl, Nat.mod_eq_of_lt hw_lt]
      exact hiso_and
  case High =>
    obtain ⟨hw_lt, _, _⟩ := or_mask_facts (i % 8) hi8 (spi.regs label.address % 256) hd
    rw [set_value_ok label i IoValue.High spi
      ((spi.regs label.address % 256) ||| 1 <<< (i % 8)) hf rfl]
    by_cases hc : spi.regs label.address % 256 =
        (spi.regs label.address % 256) ||| 1 <<< (i % 8)
    · rw [if_neg (not_not_intro hc)]
    · rw [if_pos hc]
      show Nat.testBit ((if label.address = label.address then
          ((spi.regs label.address % 256) ||| 1 <<< (i % 8)) % 256
        else spi.regs label.address) % 256) j = _
      rw [if_pos rfl, Nat.mod_mod_of_dvd _ dvd_rfl, Nat.mod_eq_of_lt hw_lt]
      exact hiso_or

/-- Witness for C3 at pin (Out, 2), observing bit 5, value High. -/
theorem claim_C3_witness :
    (2 : Nat) < 8 ∧ (5 : Nat) < 8 ∧ (5 : Nat) ≠ 2 ∧ spiH.faults = [] ∧
    Nat.testBit
      ((Pin.set_value ⟨PortLabel.Out, 2⟩ IoValue.High spiH).1.regs PortLabel.Out.address % 256) 5
      = Nat.testBit (spiH.regs PortLabel.Out.address % 256) 5 :=
  ⟨by decide, by decide, by decide, rfl,
   claim_C3 PortLabel.Out 2 5 IoValue.High spiH (by decide) (by decide) (by decide) rfl⟩

/-- Claim C4: Expander::new, after opening and configuring the transport,
performs exactly four 3-byte initialization writes in this order: data
register of the Out port (GPIOA) set to 0, direction-A all-output (0x00),
direction-B all-input (0xFF), port-B pull-ups enabled (0xFF); if any step
returns an error, construction aborts and that error is propagated. -/
theorem claim_C4 (spi : Spidev) :
    (spi.faults = [] →
      (Expander.new spi).2 = Except.ok () ∧
      (Expander.new spi).1.log = spi.log ++
        [Txn.write [write_cmd, GPIOA, 0],
         Txn.write [write_cmd, IODIRA, 0],
         Txn.write [write_cmd, IODIRB, 0xFF],
         Txn.write [write_cmd, GPPUB, 0xFF]]) ∧
    (∀ k e rest, k ≤ 3 → spi.faults = List.replicate k none ++ some e :: rest →
      (Expander.new spi).2 = Except.error e) := by
  constructor
  · intro hf
    simp [Expander.new, write_byte, Spidev.write_ok, hf]
  · intro k e rest hk hfault
    match k, hk with
    | 0, _ => simp [Expander.new, write_byte, Spidev.write, hfault, List.replicate]
    | 1, _ => simp [Expander.new, write_byte, Spidev.write, hfault, List.replicate]
    | 2, _ => simp [Expander.new, write_byte, Spidev.write, hfault, List.replicate]
    | 3, _ => simp [Expander.new, write_byte, Spidev.write, hfault, List.replicate]

/-- Witness for C4: a healthy transport yields the four ordered writes, and a
transport failing on its third transaction aborts construction with that
error. -/
theorem claim_C4_witness :
    ((Expander.new spiH).2 = Except.ok () ∧
     (Expander.new spiH).1.log = spiH.log ++
       [Txn.write [write_cmd, GPIOA, 0],
        Txn.write [write_cmd, IODIRA, 0],
        Txn.write [write_cmd, IODIRB, 0xFF],
        Txn.write [write_cmd, GPPUB, 0xFF]]) ∧
    (Expander.new spiF2).2 = Except.error 5 :=
  ⟨(claim_C4 spiH).1 rfl, (claim_C4 spiF2).2 2 5 [] (by decide) rfl⟩

/-- Claim C5: immediately after a successful construction, reading the Out
port's data byte via output_byte returns 0. -/
theorem claim_C5 (spi : Spidev) (hf : spi.faults = []) :
    (Expander.new spi).2 = Except.ok () ∧
    (Expander.output_byte (Expander.new spi).1).2 = Except.ok 0 := by
  simp [Expander.new, write_byte, Spidev.write_ok, hf, Expander.output_byte,
    read_port, read_byte, Spidev.transfer_ok, chipWrite, chipRx, write_cmd_eq,
    read_cmd_eq, PortLabel.address, IODIRA, IODIRB, GPPUB, GPIOA, GPIOB]

/-- Witness for C5 over a healthy transport on a zeroed chip. -/
theorem claim_C5_witness :
    spiH.faults = [] ∧
    ((Expander.new spiH).2 = Except.ok () ∧
     (Expander.output_byte (Expander.new spiH).1).2 = Except.ok 0) :=
  ⟨rfl, claim_C5 spiH rfl⟩

theorem set_value_succeeds (label : PortLabel) (num : Nat) (v : IoValue) (spi : Spidev)
    (hf : spi.faults = []) :
    (Pin.set_value ⟨label, num⟩ v spi).2 = Except.ok () := by
  rw [set_value_ok label num v spi _ hf rfl]
  split <;> rfl

/-- Claim C6: every transaction the driver issues is exactly 3 bytes: byte 0
the command byte 0x40 | (hardwareAddress << 1) | rw (write-command 0x40,
read-command 0x41 for hardware address 0), byte 1 the register address from
the constants direction-A = 0x00, direction-B = 0x01, pull-up-B = 0x0D,
data-A = 0x12, data-B = 0x13, byte 2 the data byte for writes or a
don't-care byte for reads, with a read's result taken from the 3rd received
byte of the duplex reply. -/
theorem claim_C6 (spi : Spidev) (address byte : Nat) (hf : spi.faults = []) :
    write_cmd = 0x40 ||| (HARDWARE_ADDRESS <<< 1) ||| 0 ∧
    read_cmd = 0x40 ||| (HARDWARE_ADDRESS <<< 1) ||| 1 ∧
    write_cmd = 0x40 ∧ read_cmd = 0x41 ∧
    IODIRA = 0x00 ∧ IODIRB = 0x01 ∧ GPPUB = 0x0D ∧ GPIOA = 0x12 ∧ GPIOB = 0x13 ∧
    PortLabel.Out.address = GPIOA ∧ PortLabel.In.address = GPIOB ∧
    (write_byte spi address byte).1.log
      = spi.log ++ [Txn.write [write_cmd, address, byte]] ∧
    (read_byte spi address).1.log
      = spi.log ++ [Txn.transfer [read_cmd, address, 0]] ∧
    ([write_cmd, address, byte] : List Nat).length = 3 ∧
    ([read_cmd, address, 0] : List Nat).length = 3 ∧
    (read_byte spi address).2
      = Except.ok ((chipRx spi.regs [read_cmd, address, 0]).getD 2 0) := by
  refine ⟨rfl, rfl, rfl, rfl, rfl, rfl, rfl, rfl, rfl, rfl, rfl, ?_, ?_, rfl, rfl, ?_⟩
  · simp [write_byte, Spidev.write_ok, hf]
  · simp [read_byte, Spidev.transfer_ok, hf]
  · simp [read_byte, Spidev.transfer_ok, hf]

/-- Witness for C6 at register address 0x12 and data byte 0xAB. -/
theorem claim_C6_witness :
    spiH.faults = [] ∧
    (write_cmd = 0x40 ||| (HARDWARE_ADDRESS <<< 1) ||| 0 ∧
     read_cmd = 0x40 ||| (HARDWARE_ADDRESS <<< 1) ||| 1 ∧
     write_cmd = 0x40 ∧ read_cmd = 0x41 ∧
     IODIRA = 0x00 ∧ IODIRB = 0x01 ∧ GPPUB = 0x0D ∧ GPIOA = 0x12 ∧ GPIOB = 0x13 ∧
     PortLabel.Out.address = GPIOA ∧ PortLabel.In.address = GPIOB ∧
     (write_byte spiH 0x12 0xAB).1.log
       = spiH.log ++ [Txn.write [write_cmd, 0x12, 0xAB]] ∧
     (read_byte spiH 0x12).1.log
       = spiH.log ++ [Txn.transfer [read_cmd, 0x12, 0]] ∧
     ([write_cmd, 0x12, 0xAB] : List Nat).length = 3 ∧
     ([read_cmd, 0x12, 0] : List Nat).length = 3 ∧
     (read_byte spiH 0x12).2
       = Except.ok ((chipRx spiH.regs [read_cmd, 0x12, 0]).getD 2 0)) :=
  ⟨rfl, claim_C6 spiH 0x12 0xAB rfl⟩

/-- Claim C7: if the transport transaction inside a port-byte read
(output_byte or input_byte) fails, the error is returned to the caller
unchanged and no further bus transaction (in particular no write) is
attempted as a fallback: the log and the chip registers are untouched. -/
theorem claim_C7 (spi : Spidev) (e : Nat) (rest : List (Option Nat))
    (hf : spi.faults = some e :: rest) :
    (Expander.output_byte spi).2 = Except.error e ∧
    (Expander.output_byte spi).1.log = spi.log ∧
    (Expander.output_byte spi).1.regs = spi.regs ∧
    (Expander.input_byte spi).2 = Except.error e ∧
    (Expander.input_byte spi).1.log = spi.log ∧
    (Expander.input_byte spi).1.regs = spi.regs := by
  refine ⟨?_, ?_, ?_, ?_, ?_, ?_⟩ <;>
    simp [Expander.output_byte, Expander.input_byte, read_port, read_byte,
      Spidev.transfer, hf]

/-- Witness for C7 over a transport whose first transaction fails with 7. -/
theorem claim_C7_witness :
    spiF.faults = some 7 :: [] ∧
    ((Expander.output_byte spiF).2 = Except.error 7 ∧
     (Expander.output_byte spiF).1.log = spiF.log ∧
     (Expander.output_byte spiF).1.regs = spiF.regs ∧
     (Expander.input_byte spiF).2 = Except.error 7 ∧
     (Expander.input_byte spiF).1.log = spiF.log ∧
     (Expander.input_byte spiF).1.regs = spiF.regs) :=
  ⟨rfl, claim_C7 spiF 7 [] rfl⟩

/-- Claim C8: atomicity of set_value on error: for every pin and value, if
the initial port-byte read inside set_value fails, set_value returns that
error, issues no write transaction, and the chip register state is left
unchanged by the call. -/
theorem claim_C8 (label : PortLabel) (num : Nat) (v : IoValue) (spi : Spidev)
    (e : Nat) (rest : List (Option Nat)) (hf : spi.faults = some e :: rest) :
    (Pin.set_value ⟨label, num⟩ v spi).2 = Except.error e ∧
    (Pin.set_value ⟨label, num⟩ v spi).1.log = spi.log ∧
    (Pin.set_value ⟨label, num⟩ v spi).1.regs = spi.regs := by
  refine ⟨?_, ?_, ?_⟩ <;>
    simp [Pin.set_value, read_port, read_byte, Spidev.transfer, hf]

/-- Witness for C8 at pin (Out, 4), value Low, failing transport. -/
theorem claim_C8_witness :
    spiF.faults = some 7 :: [] ∧
    ((Pin.set_value ⟨PortLabel.Out, 4⟩ IoValue.Low spiF).2 = Except.error 7 ∧
     (Pin.set_value ⟨PortLabel.Out, 4⟩ IoValue.Low spiF).1.log = spiF.log ∧
     (Pin.set_value ⟨PortLabel.Out, 4⟩ IoValue.Low spiF).1.regs = spiF.regs) :=
  ⟨rfl, claim_C8 PortLabel.Out 4 IoValue.Low spiF 7 [] rfl⟩

/-- Claim C9: for every bit index greater than 7, the resulting pin's
read_value and set_value do not perform a runtime range check and do not
fail on that account: the out-of-range index silently aliases the bit
num % 8 of the port via the (u8) shift 1 << num, and the operations
complete as if that aliased bit had been addressed. -/
theorem claim_C9 (label : PortLabel) (num : Nat) (v : IoValue) (spi : Spidev)
    (hbig : 7 < num) (hf : spi.faults = []) :
    Pin.read_value ⟨label, num⟩ spi = Pin.read_value ⟨label, num % 8⟩ spi ∧
    Pin.set_value ⟨label, num⟩ v spi = Pin.set_value ⟨label, num % 8⟩ v spi ∧
    (Pin.set_value ⟨label, num⟩ v spi).2 = Except.ok () ∧
    (∃ w, (Pin.read_value ⟨label, num⟩ spi).2 = Except.ok w) := by
  refine ⟨?_, ?_, set_value_succeeds label num v spi hf, ?_⟩
  · simp only [Pin.read_value]
    rw [u8_shl1_mod]
  · simp only [Pin.set_value]
    rw [u8_shl1_mod]
  · rw [read_value_ok label num spi hf]
    exact ⟨_, rfl⟩

/-- Witness for C9 at bit index 9 (aliasing bit 1), value High. -/
theorem claim_C9_witness :
    7 < 9 ∧ spiH.faults = [] ∧
    (Pin.read_value ⟨PortLabel.Out, 9⟩ spiH = Pin.read_value ⟨PortLabel.Out, 9 % 8⟩ spiH ∧
     Pin.set_value ⟨PortLabel.Out, 9⟩ IoValue.High spiH
       = Pin.set_value ⟨PortLabel.Out, 9 % 8⟩ IoValue.High spiH ∧
     (Pin.set_value ⟨PortLabel.Out, 9⟩ IoValue.High spiH).2 = Except.ok () ∧
     (∃ w, (Pin.read_value ⟨PortLabel.Out, 9⟩ spiH).2 = Except.ok w)) :=
  ⟨by decide, rfl, claim_C9 PortLabel.Out 9 IoValue.High spiH (by decide) rfl⟩

/-- Claim C10: every Output view can produce a companion Input (read-only)
view bound to the same port and the same bit index; producing it is a pure
value conversion (the Writer-to-Reader capability upcast), so no chip
transaction is involved: reading through the companion is the very same
state transformer as reading through the original view. -/
theorem claim_C10 (o : Output) (spi : Spidev) :
    (Output.as_input o).pin = o.pin ∧
    Input.read_value (Output.as_input o) spi = Output.read_value o spi ∧
    (∀ num, Output.as_input (Expander.output num)
      = { pin := { label := PortLabel.Out, num := num } }) :=
  ⟨rfl, rfl, fun _ => rfl⟩

end Mcp23x17
